import Mathlib

/-!
Verification of the Tottus crawl engine (src/tottus_.py) against its
natural-language specification.  The Python source is shallowly embedded:
JSON payloads become the inductive type `JsonValue`, Python dictionary
access and truthiness become explicit functions, Python exceptions become
`Except String`, and the unbounded pagination loop is given explicit fuel.
-/

/-- Tagged representation of a JSON document, as in section 3 of the spec.
Numbers are modelled as integers; no claim depends on fractional values.
Object keys are kept in insertion order and assumed unique, matching a
Python dict produced by `json.loads`. -/
inductive JsonValue : Type
  | null : JsonValue
  | bool : Bool → JsonValue
  | num : Int → JsonValue
  | str : String → JsonValue
  | arr : List JsonValue → JsonValue
  | obj : List (String × JsonValue) → JsonValue

/-- First value bound to key `k`, as Python `d.get(k)` on a dict with
unique keys. -/
def jLookup : List (String × JsonValue) → String → Option JsonValue
  | [], _ => none
  | (k, v) :: kvs, key => if k = key then some v else jLookup kvs key

/-- Python truthiness of a JSON value: `None`, `False`, `0`, `""`, `[]`
and `\x7b\x7d` are falsy, everything else is truthy. -/
def truthy : JsonValue → Bool
  | .null => false
  | .bool b => b
  | .num n => n != 0
  | .str s => s != ""
  | .arr xs => !xs.isEmpty
  | .obj kvs => !kvs.isEmpty

/-- Python `s.startswith("/")`: true exactly when the first character is
the path separator.  Stated on the character list so that it evaluates by
kernel reduction. -/
def startsWithSlash (s : String) : Bool :=
  match s.toList with
  | [] => false
  | c :: _ => c = '/'

/-- Whether a JSON value is an Object (a Python dict). -/
def isObj : JsonValue → Bool
  | .obj _ => true
  | _ => false

/-- Python `receiver.get(key, default)`: returns the bound value or the
default on a dict, raises `AttributeError` on any other receiver. -/
def dGetD (j : JsonValue) (key : String) (dflt : JsonValue) : Except String JsonValue :=
  match j with
  | .obj kvs => .ok ((jLookup kvs key).getD dflt)
  | _ => .error "AttributeError"

/-- Python `receiver.get(key)` with no default: `None` (here `none`) when
the key is absent, `AttributeError` on a non-dict receiver. -/
def dGet (j : JsonValue) (key : String) : Except String (Option JsonValue) :=
  match j with
  | .obj kvs => .ok (jLookup kvs key)
  | _ => .error "AttributeError"

/-- Python iteration over a JSON value: a list yields its elements, a
string yields its characters as one-character strings, a dict yields its
keys; other values raise `TypeError`. -/
def pyIter : JsonValue → Except String (List JsonValue)
  | .arr xs => .ok xs
  | .str s => .ok (s.toList.map (fun c => JsonValue.str c.toString))
  | .obj kvs => .ok (kvs.map (fun kv => JsonValue.str kv.1))
  | _ => .error "TypeError"

/-! ### Page acquisition (get_tottus_data_from_page, lines 9 to 38)

The navigation, marker search and JSON parse are external collaborators;
their possible outcomes are enumerated by `PageFetch`, and the JSON parser
is a parameter (`json.loads` returning `none` models a parse exception,
which the source catches in the same `except` as navigation errors). -/

/-- Outcome of rendering one page: navigation raised, or HTML whose
marker script element is absent (`none`), present without text
(`some none`), or present with text (`some (some s)`). -/
inductive PageFetch : Type
  | navError : PageFetch
  | html : Option (Option String) → PageFetch
deriving DecidableEq

/-- Embedding of `get_tottus_data_from_page`: every failure path returns
`None`; only a present, non-empty marker whose text parses returns a
document. -/
def get_tottus_data_from_page (parse : String → Option JsonValue) :
    PageFetch → Option JsonValue
  | .navError => none
  | .html none => none
  | .html (some none) => none
  | .html (some (some s)) => parse s

/-! ### Paginated product crawler
(get_tottus_products_by_category_async, lines 107 to 171) -/

/-- Embedding of lines 141 to 146: the chained dict lookups
`data.get("props", ...).get("pageProps", ...).get("results")`, raising
when an intermediate value is not a dict. -/
def getResults (data : JsonValue) : Except String (Option JsonValue) := do
  let p ← dGetD data "props" (JsonValue.obj [])
  let pp ← dGetD p "pageProps" (JsonValue.obj [])
  dGet pp "results"

/-- Embedding of the extraction loop, lines 157 to 161: each element must
be a dict (otherwise `product.get` raises `AttributeError`, line 159); a
string field `url` is recorded only when truthy, so the empty string is
skipped by the `product_url and` test on line 160. -/
def pageUrls : List JsonValue → Except String (List String)
  | [] => .ok []
  | p :: rest =>
    match p with
    | .obj kvs =>
      match jLookup kvs "url" with
      | some (.str s) =>
        if s = "" then pageUrls rest
        else do
          let us ← pageUrls rest
          .ok (s :: us)
      | _ => pageUrls rest
    | _ => .error "AttributeError"

/-- Reason the pagination loop stopped, read off the distinct print
statements at each `break` in the source. `fuelOut` is the artificial
cutoff of the fuelled embedding and corresponds to no source behaviour. -/
inductive StopReason : Type
  | noData : StopReason
  | parseError : StopReason
  | schemaMismatch : StopReason
  | emptyPage : StopReason
  | noNewItems : StopReason
  | fuelOut : StopReason
deriving DecidableEq

/-- Result of one category crawl: the accumulated references in append
order, the page numbers fetched in order, and why the loop stopped. -/
structure CrawlOk : Type where
  slugs : List String
  fetched : List Nat
  reason : StopReason
deriving DecidableEq

/-- Embedding of the `while True` pagination loop, lines 127 to 168.
`fetch` abstracts `get_tottus_data_from_page` applied to the listing URL
of each page number.  The loop keeps `all_product_slugs` (`acc`) and the
pages fetched so far (`tr`), and stops exactly as the source does:
falsy or missing data, a raised lookup (`except` on line 148), a
non-list `results`, an empty `results`, or a page whose appends left
`len(all_product_slugs)` unchanged (lines 163 to 165).  An uncaught
`AttributeError` from the extraction loop propagates as `.error`. -/
def crawlLoop (fetch : Nat → Option JsonValue) :
    Nat → Nat → List String → List Nat → Except String CrawlOk
  | 0, _, acc, tr => .ok ⟨acc, tr, .fuelOut⟩
  | fuel + 1, pageNum, acc, tr =>
    let tr2 := tr ++ [pageNum]
    match fetch pageNum with
    | none => .ok ⟨acc, tr2, .noData⟩
    | some data =>
      if truthy data = false then .ok ⟨acc, tr2, .noData⟩
      else
        match getResults data with
        | .error _ => .ok ⟨acc, tr2, .parseError⟩
        | .ok none => .ok ⟨acc, tr2, .schemaMismatch⟩
        | .ok (some rv) =>
          match rv with
          | .arr rs =>
            if rs.isEmpty then .ok ⟨acc, tr2, .emptyPage⟩
            else
              match pageUrls rs with
              | .error e => .error e
              | .ok urls =>
                if (acc ++ urls).length = acc.length then
                  .ok ⟨acc ++ urls, tr2, .noNewItems⟩
                else crawlLoop fetch fuel (pageNum + 1) (acc ++ urls) tr2
          | _ => .ok ⟨acc, tr2, .schemaMismatch⟩

/-- Embedding of `get_tottus_products_by_category_async`: start at page 1
with an empty accumulator. -/
def get_tottus_products_by_category (fetch : Nat → Option JsonValue)
    (fuel : Nat) : Except String CrawlOk :=
  crawlLoop fetch fuel 1 [] []

/-! ### Category discovery (get_tottus_categories_async, lines 40 to 105) -/

/-- Embedding of the inner component loop, lines 75 to 86.  The scan
carries the current `target_component`.  A non-dict component is skipped
by the `isinstance` guard.  For a dict component, `component.get("data",
...)` is read with a dict default; if the resulting value is not a dict
the chained `.get("cards")` raises `AttributeError`.  A `cards` value
that is present and not `None` is taken as the new target and the loop
breaks; `None` or an absent key moves to the next component. -/
def scanComponents : List JsonValue → Option JsonValue →
    Except String (Option JsonValue)
  | [], tgt => .ok tgt
  | comp :: rest, tgt =>
    match comp with
    | .obj ckvs =>
      match (jLookup ckvs "data").getD (JsonValue.obj []) with
      | .obj dkvs =>
        match jLookup dkvs "cards" with
        | some .null => scanComponents rest tgt
        | some cval => .ok (some cval)
        | none => scanComponents rest tgt
      | _ => .error "AttributeError"
    | _ => scanComponents rest tgt

/-- Embedding of the outer container loop, lines 73 to 88.  Containers
that are dicts holding a `components` key have their components iterated
(Python iteration, so a non-iterable `components` raises).  After every
container the source runs `if target_component: break`, a truthiness
test, so a falsy target (for example an empty cards list) does not stop
the scan and can be overwritten by a later container. -/
def scanContainers : List JsonValue → Option JsonValue →
    Except String (Option JsonValue)
  | [], tgt => .ok tgt
  | c :: rest, tgt => do
    let tgt2 ←
      match c with
      | .obj ckvs =>
        match jLookup ckvs "components" with
        | some compsVal => do
          let comps ← pyIter compsVal
          scanComponents comps tgt
        | none => pure tgt
      | _ => pure tgt
    match tgt2 with
    | some t => if truthy t then .ok (some t) else scanContainers rest tgt2
    | none => scanContainers rest tgt2

/-- Embedding of the emission loop, lines 91 to 94.  Each card must be a
dict (otherwise `card.get` raises); its `link` is kept when it is a
truthy string starting with the path separator — `startswith` already
excludes the empty string, so the truthiness test adds nothing. -/
def emitLinks : List JsonValue → Except String (List String)
  | [] => .ok []
  | card :: rest =>
    match card with
    | .obj ckvs =>
      match jLookup ckvs "link" with
      | some (.str s) =>
        if startsWithSlash s then do
          let us ← emitLinks rest
          .ok (s :: us)
        else emitLinks rest
      | _ => emitLinks rest
    | _ => .error "AttributeError"

/-- Embedding of the `try` body, lines 67 to 94: the four chained
`.get` lookups with defaults, iteration over the containers value, the
container scan, and — when the final target is truthy — iteration over
it and link emission.  A falsy or absent target falls to the log-only
`else` branch and yields the still-empty list. -/
def categoriesBody (data : JsonValue) : Except String (List String) := do
  let p ← dGetD data "props" (JsonValue.obj [])
  let pp ← dGetD p "pageProps" (JsonValue.obj [])
  let pg ← dGetD pp "page" (JsonValue.obj [])
  let containersVal ← dGetD pg "containers" (JsonValue.arr [])
  let containers ← pyIter containersVal
  let tgt ← scanContainers containers none
  match tgt with
  | some t =>
    if truthy t then do
      let cardsL ← pyIter t
      emitLinks cardsL
    else .ok []
  | none => .ok []

/-- Python `except ...: return []` around the parsing body: any raised
error is swallowed and the function returns the empty list. -/
def catchToNil (e : Except String (List String)) : List String :=
  match e with
  | .ok l => l
  | .error _ => []

/-- Embedding of `get_tottus_categories_async` after the fetch: `None`
or a falsy document returns `[]` (line 58); a truthy non-dict document
raises `AttributeError` at the debug `data.keys()` print on line 62,
which sits outside the `try` and therefore propagates to the caller;
otherwise the parsing body runs with every error caught to `[]`. -/
def get_tottus_categories : Option JsonValue → Except String (List String)
  | none => .ok []
  | some d =>
    if truthy d = false then .ok []
    else if isObj d = false then .error "AttributeError"
    else .ok (catchToNil (categoriesBody d))

/-! ### Specification-side category discovery

The spec (section 4.2) prescribes a depth-first, document-order traversal
of the whole tree.  These definitions follow the wording of the spec, not
the source, and exist to be compared with `get_tottus_categories`. -/

/-- Modelled from the spec: a node qualifies if it is an Object whose
`data` key maps to an Object whose `cards` key maps to an Array; the
qualifying Array is returned. -/
def qualifyingCards (j : JsonValue) : Option (List JsonValue) :=
  match j with
  | .obj kvs =>
    match jLookup kvs "data" with
    | some (.obj dkvs) =>
      match jLookup dkvs "cards" with
      | some (.arr cs) => some cs
      | _ => none
    | _ => none
  | _ => none

mutual

/-- Modelled from the spec: depth-first document-order search for the
first qualifying node, visiting a node before its children. -/
def findQualifying (j : JsonValue) : Option (List JsonValue) :=
  match qualifyingCards j with
  | some cs => some cs
  | none =>
    match j with
    | .arr xs => findQualifyingL xs
    | .obj kvs => findQualifyingKV kvs
    | _ => none

/-- Depth-first search through the elements of an Array, in order. -/
def findQualifyingL : List JsonValue → Option (List JsonValue)
  | [] => none
  | x :: xs =>
    match findQualifying x with
    | some cs => some cs
    | none => findQualifyingL xs

/-- Depth-first search through the values of an Object, in insertion
order. -/
def findQualifyingKV : List (String × JsonValue) → Option (List JsonValue)
  | [] => none
  | kv :: kvs =>
    match findQualifying kv.2 with
    | some cs => some cs
    | none => findQualifyingKV kvs

end

/-- Link kept from a card element: the element must be an Object whose
`link` is a string starting with the path separator. -/
def linkOf (j : JsonValue) : Option String :=
  match j with
  | .obj kvs =>
    match jLookup kvs "link" with
    | some (.str s) => if startsWithSlash s then some s else none
    | _ => none
  | _ => none

/-- Modelled from the spec: discovery output of the depth-first search —
the link strings of the first qualifying Array, in array order, or the
empty sequence when no node qualifies. -/
def specDiscover (d : JsonValue) : List String :=
  match findQualifying d with
  | some cs => cs.filterMap linkOf
  | none => []

/-! ### Top-level run (run_tottus_scraper, lines 173 to 208) -/

/-- Observable outcome of one whole run: the exception propagated to the
caller if any, the categories whose crawl was invoked, the lines of the
output file when the write succeeded, and whether the write raised
`IOError` (which the source catches and only logs). -/
structure RunOutcome : Type where
  raised : Option String
  invoked : List String
  written : Option (List String)
  writeError : Bool
deriving DecidableEq

/-- Embedding of line 192: `sorted(list(set(all_product_slugs)))` —
deduplicate by exact string equality, then sort lexicographically. -/
def unique_slugs (all : List String) : List String :=
  List.insertionSort (· ≤ ·) all.dedup

/-- Embedding of the category loop, lines 186 to 190, followed by the
merge and write, lines 192 to 208.  A crawler exception propagates
uncaught (the loop body has no `try`), aborting the run.  After the
loop the deduplicated, sorted result is written; a write failure is
caught and only logged, so the run still returns normally. -/
def runLoop (fetchFor : String → Nat → Option JsonValue) (writeOk : Bool)
    (fuel : Nat) : List String → List String → List String → RunOutcome
  | [], invoked, acc =>
    if writeOk then ⟨none, invoked, some (unique_slugs acc), false⟩
    else ⟨none, invoked, none, true⟩
  | c :: rest, invoked, acc =>
    match get_tottus_products_by_category (fetchFor c) fuel with
    | .error e => ⟨some e, invoked ++ [c], none, false⟩
    | .ok r => runLoop fetchFor writeOk fuel rest (invoked ++ [c]) (acc ++ r.slugs)

/-- Embedding of `run_tottus_scraper`: discover categories from the home
document (a raised discovery error propagates), return early — without
touching the output file — when the list is empty (lines 177 to 179),
otherwise crawl every category sequentially and persist the merge. -/
def run_tottus_scraper (homeDoc : Option JsonValue)
    (fetchFor : String → Nat → Option JsonValue) (writeOk : Bool)
    (fuel : Nat) : RunOutcome :=
  match get_tottus_categories homeDoc with
  | .error e => ⟨some e, [], none, false⟩
  | .ok categories =>
    if categories.isEmpty then ⟨none, [], none, false⟩
    else runLoop fetchFor writeOk fuel categories [] []

/-! ### Declarative helpers used to state the theorems -/

/-- String value of the `url` field of an Object element, when present. -/
def urlField (j : JsonValue) : Option String :=
  match j with
  | .obj kvs =>
    match jLookup kvs "url" with
    | some (.str s) => some s
    | _ => none
  | _ => none

/-- Reference the extraction loop records from one element: the `url`
string when it is non-empty. -/
def recordedUrl (j : JsonValue) : Option String :=
  match urlField j with
  | some s => if s = "" then none else some s
  | none => none

/-- Candidate cards value contributed by one component: the non-null
`cards` value under a dict `data` field of a dict component. -/
def componentCand (comp : JsonValue) : Option JsonValue :=
  match comp with
  | .obj ckvs =>
    match (jLookup ckvs "data").getD (JsonValue.obj []) with
    | .obj dkvs =>
      match jLookup dkvs "cards" with
      | some .null => none
      | some cval => some cval
      | none => none
    | _ => none
  | _ => none

/-- Candidate cards value contributed by one container: that of its
first qualifying component. -/
def containerCand (c : JsonValue) : Option JsonValue :=
  match c with
  | .obj ckvs =>
    match jLookup ckvs "components" with
    | some (.arr comps) => comps.findSome? componentCand
    | _ => none
  | _ => none

/-- Ordered list of per-container candidates. -/
def candList (cs : List JsonValue) : List JsonValue :=
  cs.filterMap containerCand

/-- Emission described by the amended claim: take the first truthy
candidate; when it is an Array, keep the link strings of its elements. -/
def selectEmit (cands : List JsonValue) : List String :=
  match cands.find? truthy with
  | some (.arr cards) => cards.filterMap linkOf
  | _ => []

/-- Component whose `data` field, when present, is an Object — the shape
under which the component scan cannot raise. -/
def wellShapedComponent (comp : JsonValue) : Bool :=
  match comp with
  | .obj ckvs =>
    match jLookup ckvs "data" with
    | none => true
    | some (.obj _) => true
    | some _ => false
  | _ => true

/-- Container whose `components` value, when present, is an Array of
well-shaped components. -/
def wellShapedContainer (c : JsonValue) : Bool :=
  match c with
  | .obj ckvs =>
    match jLookup ckvs "components" with
    | none => true
    | some (.arr comps) => comps.all wellShapedComponent
    | _ => false
  | _ => true

/-- Home document whose containers hold the given list, at the path the
source reads. -/
def mkContainersDoc (cs : List JsonValue) : JsonValue :=
  .obj [("props", .obj [("pageProps", .obj [("page",
    .obj [("containers", .arr cs)])])])]

/-- Home document carrying one container with one component whose cards
value is the given array. -/
def mkHomeDoc (cards : List JsonValue) : JsonValue :=
  mkContainersDoc [.obj [("components", .arr [.obj [("data",
    .obj [("cards", .arr cards)])]])]]

/-- Listing document whose `results` value is the given array. -/
def mkListingDoc (rs : List JsonValue) : JsonValue :=
  .obj [("props", .obj [("pageProps", .obj [("results", .arr rs)])])]

/-- Product element carrying only a `url` string. -/
def urlProduct (s : String) : JsonValue :=
  .obj [("url", .str s)]

deriving instance DecidableEq for Except

/-- The four failure modes of page acquisition named by the source:
navigation raised, marker element absent, marker element empty, marker
text that does not parse as JSON. -/
def isFailureMode (parse : String → Option JsonValue) (pf : PageFetch) : Prop :=
  pf = .navError ∨ pf = .html none ∨ pf = .html (some none) ∨
    ∃ s, pf = .html (some (some s)) ∧ parse s = none

/-- A fetched page on which the extraction loop cannot raise: either no
document, or a document whose `results`, when it is reached and is a
list, holds only Objects. -/
def pageSafe (o : Option JsonValue) : Bool :=
  match o with
  | none => true
  | some d =>
    match getResults d with
    | .ok (some (.arr rs)) => rs.all isObj
    | _ => true

/-! ### Concrete documents and oracles used by counterexamples and
witnesses -/

/-- Scenario of the spec: page 1 gives `/p1`,`/p2`; page 2 gives `/p3`;
page 3 repeats `/p3`; later pages fail. -/
def oracleRepeat : Nat → Option JsonValue
  | 1 => some (mkListingDoc [urlProduct "/p1", urlProduct "/p2"])
  | 2 => some (mkListingDoc [urlProduct "/p3"])
  | 3 => some (mkListingDoc [urlProduct "/p3"])
  | _ => none

/-- Page 2 repeats a reference of page 1 next to a fresh one. -/
def oracleDup : Nat → Option JsonValue
  | 1 => some (mkListingDoc [urlProduct "/p"])
  | 2 => some (mkListingDoc [urlProduct "/p", urlProduct "/q"])
  | _ => none

/-- Page 1 holds one product Object carrying no `url` field. -/
def oracleNoUrls : Nat → Option JsonValue
  | _ => some (mkListingDoc [.obj [("name", .str "x")]])

/-- Home document whose only qualifying node sits outside the containers
path the source reads. -/
def docOutside : JsonValue :=
  .obj [("a", .obj [("data", .obj [("cards",
    .arr [.obj [("link", .str "/x")]])])])]

/-- Home document whose cards array holds one well-shaped card followed
by a bare string. -/
def docJunkCard : JsonValue :=
  mkHomeDoc [.obj [("link", .str "/a")], .str "junk"]

/-- Home document yielding exactly the category `/a`. -/
def homeA : JsonValue := mkHomeDoc [.obj [("link", .str "/a")]]

/-- Home document yielding the categories `/a` and `/b`. -/
def homeAB : JsonValue :=
  mkHomeDoc [.obj [("link", .str "/a")], .obj [("link", .str "/b")]]

/-- Fetch oracle on which every page fails. -/
def emptyFetch : String → Nat → Option JsonValue := fun _ _ => none

/-- Fetch oracle on which every listing page has a results array holding
one bare string. -/
def boomFetch : String → Nat → Option JsonValue :=
  fun _ _ => some (mkListingDoc [.str "boom"])

/-- Parser that rejects every marker text. -/
def parseNone : String → Option JsonValue := fun _ => none

/-- Site whose page 1 raises on navigation and whose other pages carry a
marker. -/
def siteNavFail : Nat → PageFetch :=
  fun q => if q = 1 then .navError else .html (some (some "x"))

/-- Site whose page 1 has no marker element and whose other pages carry
one. -/
def siteNoMarker : Nat → PageFetch :=
  fun q => if q = 1 then .html none else .html (some (some "x"))

/-! ### Counterexamples -/

/-- Claim C1 counterexample.  On the scenario of the spec (page 3
repeats the single reference of page 2) the crawler does not stop at
page 3 with NoNewItems: the repeated reference is appended again, so the
length check on line 163 sees growth, page 4 is fetched (and fails,
ending the crawl with reason noData), and the result is not the set of
distinct references but contains `/p3` twice. -/
theorem claim1_counterexample :
    get_tottus_products_by_category oracleRepeat 10 =
      .ok ⟨["/p1", "/p2", "/p3", "/p3"], [1, 2, 3, 4], .noData⟩ ∧
    (4 : Nat) ∈ [1, 2, 3, 4] ∧
    ¬ (["/p1", "/p2", "/p3", "/p3"] : List String).Nodup := by
  refine ⟨by decide, by decide, by decide⟩

/-- Claim C2 counterexample.  A page repeating an already-accumulated
reference appends it again, so the per-category product list contains a
duplicate. -/
theorem claim2_counterexample :
    get_tottus_products_by_category oracleDup 6 =
      .ok ⟨["/p", "/p", "/q"], [1, 2, 3], .noData⟩ ∧
    ¬ (["/p", "/p", "/q"] : List String).Nodup := by
  refine ⟨by decide, by decide⟩

/-- Claim C3 counterexample.  A document whose only qualifying node sits
outside `props.pageProps.page.containers` yields `/x` under the
depth-first whole-tree traversal the claim describes, but the source
reads only the fixed path and returns the empty list. -/
theorem claim3_counterexample :
    get_tottus_categories (some docOutside) = .ok [] ∧
    specDiscover docOutside = ["/x"] := by
  refine ⟨by decide, by decide⟩

/-- Claim C4 counterexample.  A results array holding a bare string
makes `product.get` on line 159 raise outside any handler; the
exception aborts the whole run: the second category `/b` is never
crawled and nothing is persisted. -/
theorem claim4_counterexample :
    run_tottus_scraper (some homeAB) boomFetch true 5 =
      ⟨some "AttributeError", ["/a"], none, false⟩ ∧
    "/b" ∉ (["/a"] : List String) := by
  refine ⟨by decide, by decide⟩

/-- Claim C5 counterexample.  With no categories the run returns early
on line 179: it succeeds with zero invocations, but no output file is
written at all, rather than a file with zero lines. -/
theorem claim5_counterexample :
    (run_tottus_scraper none emptyFetch true 3).raised = none ∧
    (run_tottus_scraper none emptyFetch true 3).invoked = [] ∧
    (run_tottus_scraper none emptyFetch true 3).written ≠ some [] := by
  refine ⟨by decide, by decide, by decide⟩

/-- Claim C6 counterexample.  When the final write fails, the `except`
on lines 205 to 208 swallows the error: the run returns normally
(nothing is surfaced to the caller) and the in-memory result is not
made available either — the function returns no value. -/
theorem claim6_counterexample :
    run_tottus_scraper (some homeA) emptyFetch false 3 =
      ⟨none, ["/a"], none, true⟩ ∧
    (run_tottus_scraper (some homeA) emptyFetch false 3).raised = none := by
  refine ⟨by decide, by decide⟩

/-- Claim C7 counterexample.  An element that is an Object with the
string field `url` valued by the empty string is not recorded: the
truthiness test `product_url and ...` on line 160 rejects it. -/
theorem claim7_counterexample :
    urlField (urlProduct "") = some "" ∧
    pageUrls [urlProduct ""] = .ok [] := by
  refine ⟨by decide, by decide⟩

/-- Claim C8 counterexample.  A non-Object element of the cards array is
not silently skipped: `card.get` on line 92 raises, the `except` returns
the empty list, and the link `/a` collected from the preceding
well-shaped card is discarded.  Moreover discovery can raise to its
caller: a truthy non-Object document hits the `data.keys()` debug print
on line 62, which sits outside the `try`. -/
theorem claim8_counterexample :
    get_tottus_categories (some docJunkCard) = .ok [] ∧
    linkOf (.obj [("link", .str "/a")]) = some "/a" ∧
    get_tottus_categories (some (.arr [.num 1])) = .error "AttributeError" := by
  refine ⟨by decide, by decide, by decide⟩

/-! ### Helper lemmas -/

/-- Appending leaves the length unchanged exactly when nothing was
appended — the meaning of the check on line 163. -/
theorem append_length_eq_iff (acc urls : List String) :
    ((acc ++ urls).length = acc.length) ↔ urls = [] := by
  rw [List.length_append]
  constructor
  · intro h
    have : urls.length = 0 := by omega
    exact List.length_eq_zero.mp this
  · intro h
    subst h
    simp

/-- Extraction over a list of Objects records exactly the non-empty
`url` strings, in order. -/
theorem pageUrls_filterMap (rs : List JsonValue)
    (h : rs.all isObj = true) :
    pageUrls rs = .ok (rs.filterMap recordedUrl) := by
  induction rs with
  | nil => rfl
  | cons p rest ih =>
    rw [List.all_cons, Bool.and_eq_true] at h
    obtain ⟨hp, hrest⟩ := h
    cases p with
    | obj kvs =>
      rw [pageUrls, List.filterMap_cons]
      cases hu : jLookup kvs "url" with
      | none =>
        simp [recordedUrl, urlField, hu, ih hrest]
      | some v =>
        cases v with
        | str s =>
          by_cases hs : s = ""
          · subst hs
            simp [recordedUrl, urlField, hu, ih hrest]
          · simp only [recordedUrl, urlField, hu, hs, if_neg hs, ih hrest]
            simp [recordedUrl, urlField, hu, hs]
            rfl
        | null => simp [recordedUrl, urlField, hu, ih hrest]
        | bool b => simp [recordedUrl, urlField, hu, ih hrest]
        | num n => simp [recordedUrl, urlField, hu, ih hrest]
        | arr xs => simp [recordedUrl, urlField, hu, ih hrest]
        | obj o => simp [recordedUrl, urlField, hu, ih hrest]
    | null => exact absurd hp (by simp [isObj])
    | bool b => exact absurd hp (by simp [isObj])
    | num n => exact absurd hp (by simp [isObj])
    | str s => exact absurd hp (by simp [isObj])
    | arr xs => exact absurd hp (by simp [isObj])

/-! ### Claim theorems -/

/-- Claim C1, amended.  The crawler stops at page P with reason
NoNewItems, leaving its accumulator untouched and never fetching page
P+1, exactly when page P fetches a truthy document whose results list is
non-empty but no element of it yields a recorded reference (no truthy
string `url`).  A page whose references merely repeat the accumulator
does not stop the crawl: every extracted reference is appended again. -/
theorem claim1_theorem (fetch : Nat → Option JsonValue) (fuel page : Nat)
    (acc : List String) (tr : List Nat) (d : JsonValue) (rs : List JsonValue)
    (hfuel : 1 ≤ fuel) (hf : fetch page = some d) (ht : truthy d = true)
    (hr : getResults d = .ok (some (.arr rs))) (hne : rs ≠ [])
    (hu : pageUrls rs = .ok []) (htr : page + 1 ∉ tr) :
    crawlLoop fetch fuel page acc tr = .ok ⟨acc, tr ++ [page], .noNewItems⟩ ∧
      page + 1 ∉ tr ++ [page] := by
  obtain ⟨k, rfl⟩ : ∃ k, fuel = k + 1 := ⟨fuel - 1, by omega⟩
  constructor
  · rw [crawlLoop, hf]
    simp [ht, hr, hu, List.isEmpty_iff, hne]
  · simp [List.mem_append, htr]

/-- Claim C1 witness: a page holding one product Object with no `url`
field stops the crawl at page 1 with NoNewItems. -/
theorem claim1_theorem_witness :
    crawlLoop oracleNoUrls 5 1 [] [] = .ok ⟨[], [1], .noNewItems⟩ ∧
      (2 : Nat) ∉ ([] : List Nat) ++ [1] := by
  exact claim1_theorem oracleNoUrls 5 1 [] []
    (mkListingDoc [.obj [("name", .str "x")]])
    [.obj [("name", .str "x")]]
    (by decide) (by rfl) (by decide) (by rfl) (by simp) (by rfl)
    (by simp)

/-- Claim C5, amended.  When discovery yields the empty category list the
run returns early and successfully: no exception, zero crawler
invocations, and no output file is written at all (rather than a
zero-line file). -/
theorem claim5_theorem (homeDoc : Option JsonValue)
    (fetchFor : String → Nat → Option JsonValue) (writeOk : Bool) (fuel : Nat)
    (h : get_tottus_categories homeDoc = .ok []) :
    run_tottus_scraper homeDoc fetchFor writeOk fuel = ⟨none, [], none, false⟩ := by
  rw [run_tottus_scraper, h]
  rfl

/-- Claim C5 witness: a failed home fetch yields no categories and the
run ends with nothing invoked and nothing written. -/
theorem claim5_theorem_witness :
    run_tottus_scraper none emptyFetch true 3 = ⟨none, [], none, false⟩ := by
  exact claim5_theorem none emptyFetch true 3 (by decide)

/-- Claim C7, amended.  Over a results list of Objects the extraction
records, in order, exactly the elements whose `url` field is a truthy
string: a string-valued `url` is recorded iff it is non-empty, so the
empty string is skipped. -/
theorem claim7_theorem (rs : List JsonValue) (h : rs.all isObj = true) :
    pageUrls rs = .ok (rs.filterMap recordedUrl) := by
  exact pageUrls_filterMap rs h

/-- Claim C7 witness: of a proper url, a url-less Object and an
empty-string url, only the first is recorded. -/
theorem claim7_theorem_witness :
    pageUrls [urlProduct "/a", .obj [("name", .str "b")], urlProduct ""] =
      .ok ["/a"] := by
  have h := claim7_theorem
    [urlProduct "/a", .obj [("name", .str "b")], urlProduct ""] (by decide)
  simpa using h

/-- Claim C2, amended.  The running accumulator is never consulted when
a page is processed: the crawl from any state equals the crawl from the
empty state with the accumulator and trace merely prepended.  Every
extracted reference of every page is therefore appended whether or not
it is already present, and the per-category list can contain duplicates;
deduplication happens only at the global merge. -/
theorem claim2_theorem (fetch : Nat → Option JsonValue) :
    ∀ (fuel page : Nat) (acc : List String) (tr : List Nat),
      crawlLoop fetch fuel page acc tr =
        match crawlLoop fetch fuel page [] [] with
        | .error e => .error e
        | .ok r => .ok ⟨acc ++ r.slugs, tr ++ r.fetched, r.reason⟩ := by
  intro fuel
  induction fuel with
  | zero =>
    intro page acc tr
    simp [crawlLoop]
  | succ n ih =>
    intro page acc tr
    rw [crawlLoop, crawlLoop]
    cases hfd : fetch page with
    | none => simp
    | some data =>
      try dsimp only
      by_cases ht : truthy data = false
      · simp [ht]
      · rw [if_neg ht, if_neg ht]
        cases hgr : getResults data with
        | error e => simp
        | ok ro =>
          try dsimp only
          cases ro with
          | none => simp
          | some rv =>
            try dsimp only
            cases rv with
            | arr rs =>
              try dsimp only
              by_cases hrs : rs.isEmpty
              · simp [hrs]
              · rw [if_neg hrs, if_neg hrs]
                cases hpu : pageUrls rs with
                | error e => simp
                | ok urls =>
                  try dsimp only
                  simp only [append_length_eq_iff, List.nil_append,
                    List.length_nil, List.length_eq_zero]
                  by_cases hu : urls = []
                  · subst hu
                    simp
                  · rw [if_neg hu, if_neg hu, ih (page + 1) (acc ++ urls) (tr ++ [page]),
                      ih (page + 1) urls [page]]
                    cases crawlLoop fetch n (page + 1) [] [] with
                    | error e => rfl
                    | ok r => simp
            | null => simp
            | bool b => simp
            | num m => simp
            | str s => simp
            | obj kvs => simp

/-- Acquisition returns `None` on every enumerated failure mode. -/
theorem failureMode_none (parse : String → Option JsonValue) (pf : PageFetch)
    (h : isFailureMode parse pf) :
    get_tottus_data_from_page parse pf = none := by
  rcases h with h | h | h | ⟨s, h, hp⟩ <;> subst h
  · rfl
  · rfl
  · rfl
  · exact hp

/-- Claim C10, confirmed.  Page acquisition collapses every failure mode
— navigation error, marker absent, marker empty, marker text not valid
JSON — to the same value `None`; consequently two sites that agree on
all pages before P and both fail at P (in any of the modes) give the
crawl identical results from any state at or before P: the partial
result does not depend on which failure kind ended pagination, and the
failure kinds are not distinguishable at the crawler interface. -/
theorem claim10_theorem (parse : String → Option JsonValue)
    (site1 site2 : Nat → PageFetch) (P : Nat)
    (hagree : ∀ q, q < P → site1 q = site2 q)
    (h1 : isFailureMode parse (site1 P))
    (h2 : isFailureMode parse (site2 P)) :
    get_tottus_data_from_page parse (site1 P) = none ∧
    get_tottus_data_from_page parse (site2 P) = none ∧
    ∀ fuel page acc tr, page ≤ P →
      crawlLoop (fun p => get_tottus_data_from_page parse (site1 p)) fuel page acc tr =
      crawlLoop (fun p => get_tottus_data_from_page parse (site2 p)) fuel page acc tr := by
  refine ⟨failureMode_none parse _ h1, failureMode_none parse _ h2, ?_⟩
  intro fuel
  induction fuel with
  | zero =>
    intro page acc tr hpage
    rfl
  | succ n ih =>
    intro page acc tr hpage
    rcases eq_or_lt_of_le hpage with hP | hP
    · subst hP
      rw [crawlLoop, crawlLoop, failureMode_none parse _ h1, failureMode_none parse _ h2]
    · have he : site1 page = site2 page := hagree page hP
      rw [crawlLoop, crawlLoop, he]
      cases hv : get_tottus_data_from_page parse (site2 page) with
      | none => rfl
      | some data =>
        try dsimp only
        by_cases ht : truthy data = false
        · simp [ht]
        · rw [if_neg ht, if_neg ht]
          cases hgr : getResults data with
          | error e => rfl
          | ok ro =>
            try dsimp only
            cases ro with
            | none => rfl
            | some rv =>
              try dsimp only
              cases rv with
              | arr rs =>
                try dsimp only
                by_cases hrs : rs.isEmpty
                · simp [hrs]
                · rw [if_neg hrs, if_neg hrs]
                  cases hpu : pageUrls rs with
                  | error e => rfl
                  | ok urls =>
                    try dsimp only
                    by_cases hu : (acc ++ urls).length = acc.length
                    · simp [hu]
                    · rw [if_neg hu, if_neg hu]
                      exact ih (page + 1) (acc ++ urls) (tr ++ [page]) hP
              | null => rfl
              | bool b => rfl
              | num m => rfl
              | str s => rfl
              | obj kvs => rfl

/-- Claim C10 witness: a navigation failure at page 1 and a missing
marker at page 1 return the same `None` and give identical crawl
results. -/
theorem claim10_theorem_witness :
    get_tottus_data_from_page parseNone (siteNavFail 1) = none ∧
    get_tottus_data_from_page parseNone (siteNoMarker 1) = none ∧
    crawlLoop (fun p => get_tottus_data_from_page parseNone (siteNavFail p)) 3 1 [] [] =
      crawlLoop (fun p => get_tottus_data_from_page parseNone (siteNoMarker p)) 3 1 [] [] := by
  have h := claim10_theorem parseNone siteNavFail siteNoMarker 1
    (by intro q hq; interval_cases q; rfl)
    (by left; rfl)
    (by right; left; rfl)
  exact ⟨h.1, h.2.1, h.2.2 3 1 [] [] (by decide)⟩

/-- On safe pages (results elements all Objects whenever a results list
is reached) the pagination loop never propagates an exception. -/
theorem crawl_no_error (fetch : Nat → Option JsonValue)
    (hsafe : ∀ p, pageSafe (fetch p) = true) :
    ∀ fuel page acc tr, ∃ r, crawlLoop fetch fuel page acc tr = .ok r := by
  intro fuel
  induction fuel with
  | zero =>
    intro page acc tr
    exact ⟨_, rfl⟩
  | succ n ih =>
    intro page acc tr
    rw [crawlLoop]
    cases hfd : fetch page with
    | none => exact ⟨_, rfl⟩
    | some data =>
      try dsimp only
      by_cases ht : truthy data = false
      · rw [if_pos ht]
        exact ⟨_, rfl⟩
      · rw [if_neg ht]
        cases hgr : getResults data with
        | error e => exact ⟨_, rfl⟩
        | ok ro =>
          try dsimp only
          cases ro with
          | none => exact ⟨_, rfl⟩
          | some rv =>
            try dsimp only
            cases rv with
            | arr rs =>
              try dsimp only
              by_cases hrs : rs.isEmpty
              · rw [if_pos hrs]
                exact ⟨_, rfl⟩
              · rw [if_neg hrs]
                have hobj : rs.all isObj = true := by
                  have hp := hsafe page
                  rw [hfd] at hp
                  simp only [pageSafe, hgr] at hp
                  exact hp
                rw [pageUrls_filterMap rs hobj]
                try dsimp only
                by_cases hu : (acc ++ rs.filterMap recordedUrl).length = acc.length
                · rw [if_pos hu]
                  exact ⟨_, rfl⟩
                · rw [if_neg hu]
                  exact ih (page + 1) _ _
            | null => exact ⟨_, rfl⟩
            | bool b => exact ⟨_, rfl⟩
            | num m => exact ⟨_, rfl⟩
            | str s => exact ⟨_, rfl⟩
            | obj kvs => exact ⟨_, rfl⟩

/-- On safe pages the category loop completes every category, raises
nothing, and ends at the write step. -/
theorem runLoop_no_error (fetchFor : String → Nat → Option JsonValue)
    (w : Bool) (fuel : Nat) :
    ∀ cats invoked acc,
      (∀ c ∈ cats, ∀ p, pageSafe (fetchFor c p) = true) →
      ∃ finalAcc, runLoop fetchFor w fuel cats invoked acc =
        ⟨none, invoked ++ cats, if w then some (unique_slugs finalAcc) else none, !w⟩ := by
  intro cats
  induction cats with
  | nil =>
    intro invoked acc h
    refine ⟨acc, ?_⟩
    rw [runLoop]
    cases w <;> simp
  | cons c rest ih =>
    intro invoked acc h
    rw [runLoop]
    obtain ⟨r, hr⟩ :=
      crawl_no_error (fetchFor c) (fun p => h c (List.mem_cons_self c rest) p) fuel 1 [] []
    have hr2 : get_tottus_products_by_category (fetchFor c) fuel = .ok r := hr
    rw [hr2]
    try dsimp only
    obtain ⟨fa, hf⟩ := ih (invoked ++ [c]) (acc ++ r.slugs)
      (fun c2 hc2 p => h c2 (List.mem_cons_of_mem c hc2) p)
    refine ⟨fa, ?_⟩
    rw [hf]
    simp

/-- Claim C4, amended.  Failure isolation holds only below the
extraction loop: when every reached results element is an Object, every
per-page failure (fetch, marker, parse, schema, empty page) merely ends
that category and the run completes all categories without raising.  A
results element that is not an Object, however, raises an uncaught
`AttributeError` that aborts the whole run (see the counterexample). -/
theorem claim4_theorem (homeDoc : Option JsonValue) (cats : List String)
    (fetchFor : String → Nat → Option JsonValue) (w : Bool) (fuel : Nat)
    (hcat : get_tottus_categories homeDoc = .ok cats) (hne : cats ≠ [])
    (hsafe : ∀ c p, pageSafe (fetchFor c p) = true) :
    (run_tottus_scraper homeDoc fetchFor w fuel).raised = none ∧
    (run_tottus_scraper homeDoc fetchFor w fuel).invoked = cats := by
  rw [run_tottus_scraper, hcat]
  try dsimp only
  have hemp : cats.isEmpty = false := by
    simp [List.isEmpty_iff, hne]
  rw [hemp]
  obtain ⟨fa, hf⟩ := runLoop_no_error fetchFor w fuel cats [] [] (fun c hc p => hsafe c p)
  rw [hf]
  simp

/-- Claim C4 witness: with two categories and all pages failing at fetch
(a safe failure), both categories complete and nothing is raised. -/
theorem claim4_theorem_witness :
    (run_tottus_scraper (some homeAB) emptyFetch true 2).raised = none ∧
    (run_tottus_scraper (some homeAB) emptyFetch true 2).invoked = ["/a", "/b"] := by
  exact claim4_theorem (some homeAB) ["/a", "/b"] emptyFetch true 2
    (by decide) (by decide) (fun c p => rfl)

/-- Claim C6, amended.  A persistence failure is caught inside the run
(lines 205 to 208) and only logged: the run returns normally with no
error surfaced to the caller, and the computed in-memory result is not
returned either — the caller receives nothing to retry with. -/
theorem claim6_theorem (homeDoc : Option JsonValue) (cats : List String)
    (fetchFor : String → Nat → Option JsonValue) (fuel : Nat)
    (hcat : get_tottus_categories homeDoc = .ok cats) (hne : cats ≠ [])
    (hsafe : ∀ c p, pageSafe (fetchFor c p) = true) :
    run_tottus_scraper homeDoc fetchFor false fuel = ⟨none, cats, none, true⟩ := by
  rw [run_tottus_scraper, hcat]
  try dsimp only
  have hemp : cats.isEmpty = false := by
    simp [List.isEmpty_iff, hne]
  rw [hemp]
  obtain ⟨fa, hf⟩ := runLoop_no_error fetchFor false fuel cats [] [] (fun c hc p => hsafe c p)
  rw [hf]
  simp

/-- Claim C6 witness: one category, failing write — the run outcome has
no surfaced error, no written file and only the internal flag set. -/
theorem claim6_theorem_witness :
    run_tottus_scraper (some homeA) emptyFetch false 2 = ⟨none, ["/a"], none, true⟩ := by
  exact claim6_theorem (some homeA) ["/a"] emptyFetch 2
    (by decide) (by decide) (fun c p => rfl)

/-- Lines ever written to the output file are always a value of
`unique_slugs`. -/
theorem runLoop_written (fetchFor : String → Nat → Option JsonValue)
    (w : Bool) (fuel : Nat) :
    ∀ cats invoked acc l,
      (runLoop fetchFor w fuel cats invoked acc).written = some l →
      ∃ a, l = unique_slugs a := by
  intro cats
  induction cats with
  | nil =>
    intro invoked acc l h
    rw [runLoop] at h
    cases w with
    | true =>
      refine ⟨acc, ?_⟩
      simp at h
      exact h.symm
    | false => simp at h
  | cons c rest ih =>
    intro invoked acc l h
    rw [runLoop] at h
    cases hcr : get_tottus_products_by_category (fetchFor c) fuel with
    | error e =>
      rw [hcr] at h
      simp at h
    | ok r =>
      rw [hcr] at h
      try dsimp only at h
      exact ih _ _ l h

/-- Claim C9, confirmed.  The merge `sorted(list(set(...)))` produces a
strictly ascending, duplicate-free line sequence for any input multiset
of references, and therefore so is every line sequence the run ever
persists. -/
theorem claim9_theorem :
    (∀ all : List String,
      (unique_slugs all).Sorted (· < ·) ∧ (unique_slugs all).Nodup) ∧
    (∀ (homeDoc : Option JsonValue) (fetchFor : String → Nat → Option JsonValue)
        (w : Bool) (fuel : Nat) (l : List String),
      (run_tottus_scraper homeDoc fetchFor w fuel).written = some l →
      l.Sorted (· < ·) ∧ l.Nodup) := by
  have key : ∀ all : List String,
      (unique_slugs all).Sorted (· < ·) ∧ (unique_slugs all).Nodup := by
    intro all
    have hs : (unique_slugs all).Sorted (· ≤ ·) := List.sorted_insertionSort _ _
    have hn : (unique_slugs all).Nodup :=
      (List.perm_insertionSort _ _).nodup_iff.mpr (List.nodup_dedup all)
    exact ⟨hs.lt_of_le hn, hn⟩
  refine ⟨key, ?_⟩
  intro homeDoc fetchFor w fuel l h
  rw [run_tottus_scraper] at h
  cases hcat : get_tottus_categories homeDoc with
  | error e =>
    rw [hcat] at h
    simp at h
  | ok cats =>
    rw [hcat] at h
    try dsimp only at h
    by_cases hemp : cats.isEmpty
    · rw [if_pos hemp] at h
      simp at h
    · rw [if_neg hemp] at h
      obtain ⟨a, ha⟩ := runLoop_written fetchFor w fuel cats [] [] l h
      exact ha ▸ key a

/-- Claim C9 witness: a successful run writes the empty, trivially
sorted and duplicate-free file when the single category yields nothing. -/
theorem claim9_theorem_witness :
    List.Sorted (· < ·) ([] : List String) ∧ ([] : List String).Nodup := by
  exact claim9_theorem.2 (some homeA) emptyFetch true 2 [] (by decide)

/-- Emission over a cards list of Objects keeps, in order, exactly the
string `link` values starting with the path separator. -/
theorem emitLinks_filterMap (cards : List JsonValue)
    (h : cards.all isObj = true) :
    emitLinks cards = .ok (cards.filterMap linkOf) := by
  induction cards with
  | nil => rfl
  | cons card rest ih =>
    rw [List.all_cons, Bool.and_eq_true] at h
    obtain ⟨hc, hrest⟩ := h
    cases card with
    | obj kvs =>
      rw [emitLinks, List.filterMap_cons]
      cases hu : jLookup kvs "link" with
      | none =>
        simp [linkOf, hu, ih hrest]
      | some v =>
        cases v with
        | str s =>
          by_cases hs : startsWithSlash s = true
          · simp only [linkOf, hu, hs, if_pos hs, ih hrest]
            simp
            rfl
          · simp [linkOf, hu, hs, ih hrest]
        | null => simp [linkOf, hu, ih hrest]
        | bool b => simp [linkOf, hu, ih hrest]
        | num n => simp [linkOf, hu, ih hrest]
        | arr xs => simp [linkOf, hu, ih hrest]
        | obj o => simp [linkOf, hu, ih hrest]
    | null => exact absurd hc (by simp [isObj])
    | bool b => exact absurd hc (by simp [isObj])
    | num n => exact absurd hc (by simp [isObj])
    | str s => exact absurd hc (by simp [isObj])
    | arr xs => exact absurd hc (by simp [isObj])

/-- The component scan returns the first candidate of the list, keeping
the incoming target when no component qualifies. -/
theorem scanComponents_eq (comps : List JsonValue) (tgt : Option JsonValue)
    (h : comps.all wellShapedComponent = true) :
    scanComponents comps tgt = .ok (match comps.findSome? componentCand with
      | some t => some t
      | none => tgt) := by
  induction comps generalizing tgt with
  | nil => rfl
  | cons comp rest ih =>
    rw [List.all_cons, Bool.and_eq_true] at h
    obtain ⟨hc, hrest⟩ := h
    cases comp with
    | obj ckvs =>
      rw [scanComponents, List.findSome?_cons]
      cases hd : jLookup ckvs "data" with
      | none =>
        simp only [componentCand, hd, Option.getD_none, jLookup]
        exact ih tgt hrest
      | some dv =>
        cases dv with
        | obj dkvs =>
          simp only [componentCand, hd, Option.getD_some]
          cases hcv : jLookup dkvs "cards" with
          | none => exact ih tgt hrest
          | some cv =>
            cases cv with
            | null => exact ih tgt hrest
            | bool b => rfl
            | num n => rfl
            | str s => rfl
            | arr xs => rfl
            | obj o => rfl
        | null => exact absurd hc (by simp [wellShapedComponent, hd])
        | bool b => exact absurd hc (by simp [wellShapedComponent, hd])
        | num n => exact absurd hc (by simp [wellShapedComponent, hd])
        | str s => exact absurd hc (by simp [wellShapedComponent, hd])
        | arr xs => exact absurd hc (by simp [wellShapedComponent, hd])
    | null =>
      simp only [scanComponents, List.findSome?_cons, componentCand]
      exact ih tgt hrest
    | bool b =>
      simp only [scanComponents, List.findSome?_cons, componentCand]
      exact ih tgt hrest
    | num n =>
      simp only [scanComponents, List.findSome?_cons, componentCand]
      exact ih tgt hrest
    | str s =>
      simp only [scanComponents, List.findSome?_cons, componentCand]
      exact ih tgt hrest
    | arr xs =>
      simp only [scanComponents, List.findSome?_cons, componentCand]
      exact ih tgt hrest


/-- Reduction of an `Except` bind whose left side is `ok`. -/
theorem bindOk {α β : Type} (a : α) (f : α → Except String β) :
    (do
      let x ← (Except.ok a : Except String α)
      f x) = f a := rfl

/-- Reduction of an `Except` bind whose left side is `pure`. -/
theorem bindPure {α β : Type} (a : α) (f : α → Except String β) :
    (do
      let x ← (pure a : Except String α)
      f x) = f a := rfl

/-- A container contributing no candidate leaves both the scan and the
candidate list those of the remaining containers. -/
theorem scanContainers_skip (c : JsonValue) (rest : List JsonValue)
    (tgt : Option JsonValue)
    (hred : scanContainers (c :: rest) tgt = scanContainers rest tgt)
    (hcand : containerCand c = none)
    (hex : ∃ tgtF, scanContainers rest tgt = .ok tgtF ∧
      (∀ t, (candList rest).find? truthy = some t → tgtF = some t) ∧
      ((candList rest).find? truthy = none →
        ∀ t, tgtF = some t → truthy t = false)) :
    ∃ tgtF, scanContainers (c :: rest) tgt = .ok tgtF ∧
      (∀ t, (candList (c :: rest)).find? truthy = some t → tgtF = some t) ∧
      ((candList (c :: rest)).find? truthy = none →
        ∀ t, tgtF = some t → truthy t = false) := by
  obtain ⟨tgtF, hscan, h1, h2⟩ := hex
  have hcl : candList (c :: rest) = candList rest := by
    rw [candList, List.filterMap_cons, hcand]
    rfl
  exact ⟨tgtF, hred ▸ hscan, fun t ht => h1 t (hcl ▸ ht), fun hn t ht => h2 (hcl ▸ hn) t ht⟩

/-- The container scan over well-shaped containers succeeds and returns
the first truthy candidate; when no candidate is truthy the final target
is the falsy incoming target or a falsy candidate. -/
theorem scanContainers_eq (cs : List JsonValue) :
    ∀ (tgt : Option JsonValue), cs.all wellShapedContainer = true →
      (∀ t, tgt = some t → truthy t = false) →
      ∃ tgtF, scanContainers cs tgt = .ok tgtF ∧
        (∀ t, (candList cs).find? truthy = some t → tgtF = some t) ∧
        ((candList cs).find? truthy = none →
          ∀ t, tgtF = some t → truthy t = false) := by
  induction cs with
  | nil =>
    intro tgt hall htgt
    refine ⟨tgt, rfl, ?_, ?_⟩
    · intro t ht
      simp [candList] at ht
    · intro hn t ht
      exact htgt t ht
  | cons c rest ih =>
    intro tgt hall htgt
    rw [List.all_cons, Bool.and_eq_true] at hall
    obtain ⟨hc, hrest⟩ := hall
    cases c with
    | obj ckvs =>
      cases hcomp : jLookup ckvs "components" with
      | none =>
        refine scanContainers_skip _ rest tgt ?_ (by simp [containerCand, hcomp])
          (ih tgt hrest htgt)
        rw [scanContainers]
        try dsimp only
        rw [hcomp]
        try dsimp only
        rw [bindPure]
        cases htg : tgt with
        | none => rfl
        | some t =>
          have htf := htgt t htg
          simp [htf]
      | some compsVal =>
        cases compsVal with
        | arr comps =>
          have hwsc : comps.all wellShapedComponent = true := by
            have h3 := hc
            simp only [wellShapedContainer, hcomp] at h3
            exact h3
          have hcand : containerCand (.obj ckvs) = comps.findSome? componentCand := by
            simp [containerCand, hcomp]
          cases hfs : comps.findSome? componentCand with
          | none =>
            refine scanContainers_skip _ rest tgt ?_ (by rw [hcand, hfs])
              (ih tgt hrest htgt)
            rw [scanContainers]
            try dsimp only
            rw [hcomp]
            try dsimp only
            simp only [pyIter]
            rw [bindOk, scanComponents_eq comps tgt hwsc, hfs]
            try dsimp only
            rw [bindOk]
            cases htg : tgt with
            | none => rfl
            | some t =>
              have htf := htgt t htg
              simp [htf]
          | some t =>
            have hstep : scanContainers (JsonValue.obj ckvs :: rest) tgt =
                if truthy t then .ok (some t) else scanContainers rest (some t) := by
              rw [scanContainers]
              try dsimp only
              rw [hcomp]
              try dsimp only
              simp only [pyIter]
              rw [bindOk, scanComponents_eq comps tgt hwsc, hfs]
              try dsimp only
              rw [bindOk]
            have hcl : candList (JsonValue.obj ckvs :: rest) = t :: candList rest := by
              rw [candList, List.filterMap_cons, hcand, hfs]
              rfl
            by_cases ht : truthy t = true
            · refine ⟨some t, ?_, ?_, ?_⟩
              · rw [hstep, if_pos ht]
              · intro t2 ht2
                rw [hcl, List.find?_cons_of_pos _ ht] at ht2
                exact congrArg some (Option.some.inj ht2)
              · intro hn
                rw [hcl, List.find?_cons_of_pos _ ht] at hn
                simp at hn
            · have htf : truthy t = false := by
                cases htv : truthy t with
                | false => rfl
                | true => exact absurd htv ht
              obtain ⟨tgtF, hscan, h1, h2⟩ := ih (some t) hrest
                (fun t2 ht2 => by
                  cases Option.some.inj ht2
                  exact htf)
              refine ⟨tgtF, ?_, ?_, ?_⟩
              · rw [hstep, if_neg ht]
                exact hscan
              · intro t2 ht2
                rw [hcl, List.find?_cons_of_neg _ ht] at ht2
                exact h1 t2 ht2
              · intro hn t2 ht2
                rw [hcl, List.find?_cons_of_neg _ ht] at hn
                exact h2 hn t2 ht2
        | null => exact absurd hc (by simp [wellShapedContainer, hcomp])
        | bool b => exact absurd hc (by simp [wellShapedContainer, hcomp])
        | num n => exact absurd hc (by simp [wellShapedContainer, hcomp])
        | str s => exact absurd hc (by simp [wellShapedContainer, hcomp])
        | obj o => exact absurd hc (by simp [wellShapedContainer, hcomp])
    | null =>
      refine scanContainers_skip _ rest tgt ?_ (by simp [containerCand]) (ih tgt hrest htgt)
      cases htg : tgt with
      | none => rfl
      | some t =>
        have htf := htgt t htg
        show (if truthy t = true then Except.ok (some t)
          else scanContainers rest (some t)) = scanContainers rest (some t)
        simp [htf]
    | bool b =>
      refine scanContainers_skip _ rest tgt ?_ (by simp [containerCand]) (ih tgt hrest htgt)
      cases htg : tgt with
      | none => rfl
      | some t =>
        have htf := htgt t htg
        show (if truthy t = true then Except.ok (some t)
          else scanContainers rest (some t)) = scanContainers rest (some t)
        simp [htf]
    | num n =>
      refine scanContainers_skip _ rest tgt ?_ (by simp [containerCand]) (ih tgt hrest htgt)
      cases htg : tgt with
      | none => rfl
      | some t =>
        have htf := htgt t htg
        show (if truthy t = true then Except.ok (some t)
          else scanContainers rest (some t)) = scanContainers rest (some t)
        simp [htf]
    | str s =>
      refine scanContainers_skip _ rest tgt ?_ (by simp [containerCand]) (ih tgt hrest htgt)
      cases htg : tgt with
      | none => rfl
      | some t =>
        have htf := htgt t htg
        show (if truthy t = true then Except.ok (some t)
          else scanContainers rest (some t)) = scanContainers rest (some t)
        simp [htf]
    | arr xs =>
      refine scanContainers_skip _ rest tgt ?_ (by simp [containerCand]) (ih tgt hrest htgt)
      cases htg : tgt with
      | none => rfl
      | some t =>
        have htf := htgt t htg
        show (if truthy t = true then Except.ok (some t)
          else scanContainers rest (some t)) = scanContainers rest (some t)
        simp [htf]

/-- Claim C3, amended.  Category discovery is not a whole-tree search:
it reads only `props.pageProps.page.containers` and, over well-shaped
containers, selects the first truthy candidate — where each container
contributes at most the `cards` value of its first component whose
`data.cards` is non-null — then emits, in array order, the string
`link` values starting with the path separator from the Object elements
of the selected Array.  A falsy candidate (such as an empty cards
Array) is skipped and a later container can win; qualifying nodes
outside the containers path are ignored (see the counterexample). -/
theorem claim3_theorem (cs : List JsonValue)
    (h : cs.all wellShapedContainer = true)
    (hsel : ∀ t, (candList cs).find? truthy = some t →
      ∃ cards, t = .arr cards ∧ cards.all isObj = true) :
    get_tottus_categories (some (mkContainersDoc cs)) =
      .ok (selectEmit (candList cs)) := by
  obtain ⟨tgtF, hscan, h1, h2⟩ := scanContainers_eq cs none h (by intro t ht; cases ht)
  have hmain : get_tottus_categories (some (mkContainersDoc cs)) =
      .ok (catchToNil ((scanContainers cs none).bind (fun tgt =>
        match tgt with
        | some t =>
          if truthy t = true then (pyIter t).bind (fun cardsL => emitLinks cardsL)
          else Except.ok []
        | none => Except.ok []))) := rfl
  rw [hmain, hscan]
  simp only [Except.bind]
  cases hfind : (candList cs).find? truthy with
  | some t =>
    have htg := h1 t hfind
    subst htg
    obtain ⟨cards, rfl, hall⟩ := hsel t hfind
    have ht : truthy (JsonValue.arr cards) = true := List.find?_some hfind
    try dsimp only
    rw [if_pos ht]
    simp only [pyIter, Except.bind]
    rw [emitLinks_filterMap cards hall]
    rw [selectEmit, hfind]
    rfl
  | none =>
    cases tgtF with
    | none =>
      rw [selectEmit, hfind]
      rfl
    | some t =>
      have htf := h2 hfind t rfl
      try dsimp only
      rw [if_neg (by rw [htf]; exact Bool.false_ne_true)]
      rw [selectEmit, hfind]
      rfl

/-- Claim C3 witness: one well-shaped container, one component, one
well-shaped card — discovery returns the emission of the selected
candidate. -/
theorem claim3_theorem_witness :
    get_tottus_categories (some (mkContainersDoc
      [JsonValue.obj [("components", JsonValue.arr [JsonValue.obj [("data",
        JsonValue.obj [("cards", JsonValue.arr
          [JsonValue.obj [("link", JsonValue.str "/a")]])])]])]])) =
      .ok (selectEmit (candList
        [JsonValue.obj [("components", JsonValue.arr [JsonValue.obj [("data",
          JsonValue.obj [("cards", JsonValue.arr
            [JsonValue.obj [("link", JsonValue.str "/a")]])])]])]])) := by
  refine claim3_theorem _ (by decide) ?_
  intro t ht
  have h2 : some (JsonValue.arr [JsonValue.obj [("link", JsonValue.str "/a")]]) =
      some t := ht
  cases Option.some.inj h2
  exact ⟨[JsonValue.obj [("link", JsonValue.str "/a")]], rfl, by decide⟩

/-- Claim C8, amended.  Discovery over a home document whose cards are
all Objects never raises and returns, in order, the string `link`
values starting with the path separator: Object cards without such a
link are silently skipped.  A non-Object card, by contrast, aborts
parsing and discards every collected link, and a truthy non-Object
document raises to the caller (see the counterexample). -/
theorem claim8_theorem (cards : List JsonValue) (h : cards.all isObj = true) :
    get_tottus_categories (some (mkHomeDoc cards)) =
      .ok (cards.filterMap linkOf) := by
  have hsc : scanContainers [JsonValue.obj [("components", JsonValue.arr
      [JsonValue.obj [("data", JsonValue.obj [("cards", JsonValue.arr cards)])]])]]
      none = .ok (some (JsonValue.arr cards)) := by
    show (if truthy (JsonValue.arr cards) = true
        then Except.ok (some (JsonValue.arr cards))
        else scanContainers [] (some (JsonValue.arr cards))) =
      .ok (some (JsonValue.arr cards))
    by_cases hh : truthy (JsonValue.arr cards) = true
    · rw [if_pos hh]
    · rw [if_neg hh]
      rfl
  have hmain : get_tottus_categories (some (mkHomeDoc cards)) =
      .ok (catchToNil ((scanContainers [JsonValue.obj [("components", JsonValue.arr
        [JsonValue.obj [("data", JsonValue.obj [("cards", JsonValue.arr cards)])]])]]
        none).bind (fun tgt =>
          match tgt with
          | some t =>
            if truthy t = true then (pyIter t).bind (fun cardsL => emitLinks cardsL)
            else Except.ok []
          | none => Except.ok []))) := rfl
  rw [hmain, hsc]
  simp only [Except.bind]
  try dsimp only
  by_cases htr : truthy (JsonValue.arr cards) = true
  · rw [if_pos htr]
    simp only [pyIter, Except.bind]
    rw [emitLinks_filterMap cards h]
    rfl
  · rw [if_neg htr]
    have hemp : cards = [] := by
      have h3 : (!cards.isEmpty) = false := by
        cases hv : truthy (JsonValue.arr cards) with
        | false =>
          have h4 : truthy (JsonValue.arr cards) = !cards.isEmpty := rfl
          rw [h4] at hv
          exact hv
        | true => exact absurd hv htr
      have h5 : cards.isEmpty = true := by
        cases hv2 : cards.isEmpty with
        | true => rfl
        | false =>
          rw [hv2] at h3
          simp at h3
      exact List.isEmpty_iff.mp h5
    subst hemp
    rfl

/-- Claim C8 witness: an Object card with a proper link next to an
Object card without one — the former is emitted, the latter skipped,
and nothing is raised. -/
theorem claim8_theorem_witness :
    get_tottus_categories (some (mkHomeDoc
      [JsonValue.obj [("link", JsonValue.str "/a")],
       JsonValue.obj [("x", JsonValue.null)]])) = .ok ["/a"] := by
  exact claim8_theorem
    [JsonValue.obj [("link", JsonValue.str "/a")],
     JsonValue.obj [("x", JsonValue.null)]] (by decide)
